import Mathlib

/-!
Verification of the Instagram downloader API (`api/index.py`).

The development shallowly embeds the single request handler of the repository:
input validation, the upstream fetch with its failure translation, and the
four regular-expression extractions that are run over the upstream HTML body.
Python regular expressions are embedded by a small backtracking matcher that
implements exactly the constructs the four patterns use (literal characters,
greedy `[^c]+` and `[^c]*`, one capture group), with the leftmost-match
semantics of `re.search`.
-/

namespace InstaApi

/-- Regular-expression fragment in continuation form.  `lit c k` is a literal
character followed by `k`; `plus b k` is greedy `[^b]+` followed by `k`;
`star b k` is greedy `[^b]*` followed by `k`.  These are the only constructs
appearing in the four patterns of `api/index.py`. -/
inductive RePat where
  | eps : RePat
  | lit : Char → RePat → RePat
  | plus : Char → RePat → RePat
  | star : Char → RePat → RePat

/-- Remainders of a match of `re` against the empty input, in backtracking
priority order. -/
def endsNil : RePat → List (List Char)
  | .eps => [[]]
  | .lit _ _ => []
  | .plus _ _ => []
  | .star _ k => endsNil k

/-- Remainders of a match of the pattern against the input `c :: t`, in
backtracking priority order; `f` matches against `t`.  Greedy quantifiers
try the longest consumption first, which is the priority order of the
Python matcher. -/
def endsCons (c : Char) (t : List Char) (f : RePat → List (List Char)) :
    RePat → List (List Char)
  | .eps => [c :: t]
  | .lit d k => if c = d then f k else []
  | .plus b k => if c = b then [] else f (.star b k)
  | .star b k => (if c = b then [] else f (.star b k)) ++ endsCons c t f k

/-- All remainders (suffixes of the input left over) of a match of `re`
against `s`, in backtracking priority order. -/
def ends : List Char → RePat → List (List Char)
  | [], re => endsNil re
  | c :: t, re => endsCons c t (fun re0 => ends t re0) re

/-- Chain of literal characters in front of a continuation. -/
def litStr : List Char → RePat → RePat
  | [], k => k
  | c :: cs, k => .lit c (litStr cs k)

/-- Pattern with exactly one capture group: `pre` is the part before the
group, `grp` the group body, `post` the part after it.  All four regular
expressions of `api/index.py` have this shape. -/
structure Pat where
  pre : RePat
  grp : RePat
  post : RePat

/-- Capture-group values of every match of `p` starting at the beginning of
`s`, in backtracking priority order. -/
def caps (p : Pat) (s : List Char) : List (List Char) :=
  (ends s p.pre).flatMap fun r1 =>
    (ends r1 p.grp).flatMap fun r2 =>
      (ends r2 p.post).map fun _ => r1.take (r1.length - r2.length)

/-- Capture of the match of `p` anchored at the beginning of `s`, following
backtracking priority (greedy quantifiers, earlier alternatives first), or
`none` when no match starts there. -/
def matchPat (p : Pat) (s : List Char) : Option (List Char) :=
  (caps p s).head?

/-- Embedding of Python `re.search`: try each start position from the left,
return the capture of the first position at which the pattern matches. -/
def reSearch (p : Pat) : List Char → Option (List Char)
  | [] => matchPat p []
  | c :: t =>
    match matchPat p (c :: t) with
    | some r => some r
    | none => reSearch p t

/-- Transcription of `video_pattern` from `api/index.py`, the raw regex
string being  `<a[^>]+href="([^"]+\.mp4[^"]*)"[^>]*>` . -/
def video_pattern : Pat :=
  { pre := litStr "<a".data (.plus '>' (litStr "href=\"".data .eps))
    grp := .plus '"' (litStr ".mp4".data (.star '"' .eps))
    post := litStr "\"".data (.star '>' (litStr ">".data .eps)) }

/-- Transcription of `thumb_base64_pattern` from `api/index.py`, the raw
regex string being  `<img[^>]+src="data:image\/jpg;base64,([^"]+)"` . -/
def thumb_base64_pattern : Pat :=
  { pre := litStr "<img".data (.plus '>' (litStr "src=\"data:image/jpg;base64,".data .eps))
    grp := .plus '"' .eps
    post := litStr "\"".data .eps }

/-- Transcription of `thumb_pattern` from `api/index.py`, the raw regex
string being  `<a[^>]+href="([^"]+\.jpg[^"]*)"[^>]*>` . -/
def thumb_pattern : Pat :=
  { pre := litStr "<a".data (.plus '>' (litStr "href=\"".data .eps))
    grp := .plus '"' (litStr ".jpg".data (.star '"' .eps))
    post := litStr "\"".data (.star '>' (litStr ">".data .eps)) }

/-- Transcription of `alt_thumb_pattern` from `api/index.py`, the raw regex
string being  `<img[^>]+src="([^"]+\.jpg[^"]*)"[^>]*>` . -/
def alt_thumb_pattern : Pat :=
  { pre := litStr "<img".data (.plus '>' (litStr "src=\"".data .eps))
    grp := .plus '"' (litStr ".jpg".data (.star '"' .eps))
    post := litStr "\"".data (.star '>' (litStr ">".data .eps)) }

/-- Modelled from the Python standard library function `html.unescape`
(external to the repository), restricted to the XML-predefined named
character references `amp`, `lt`, `gt` and `quot`; every other character,
including any other ampersand sequence, passes through unchanged.  The
claims under verification exercise at most these references. -/
def unescape : List Char → List Char
  | [] => []
  | '&' :: 'a' :: 'm' :: 'p' :: ';' :: rest => '&' :: unescape rest
  | '&' :: 'l' :: 't' :: ';' :: rest => '<' :: unescape rest
  | '&' :: 'g' :: 't' :: ';' :: rest => '>' :: unescape rest
  | '&' :: 'q' :: 'u' :: 'o' :: 't' :: ';' :: rest => '"' :: unescape rest
  | c :: rest => c :: unescape rest

/-- Substring containment of `needle` in `hay`, modelling the Python
operator `needle in hay` on strings. -/
def containsSub (needle : List Char) : List Char → Bool
  | [] => needle.isEmpty
  | c :: t => needle.isPrefixOf (c :: t) || containsSub needle t

/-- Modelled from the Python condition `not url or url.strip() == ""` of
`api/index.py`: it holds exactly when the string consists of whitespace
only (the empty string included). -/
def isBlank (url : String) : Bool :=
  url.data.all fun c => c.isWhitespace

/-- JSON value, as far as the responses of `api/index.py` need: `null`,
strings, and objects with string keys. -/
inductive JVal where
  | jnull : JVal
  | jstr : String → JVal
  | jobj : List (String × JVal) → JVal

/-- Observable behaviour of the single outbound `requests.get` call: a
timeout (`requests.exceptions.Timeout`), a transport-level failure
(`requests.exceptions.RequestException` carrying the text of `str(e)`), or
a completed response with its final status code, reason phrase, final URL
and body text. -/
inductive Upstream where
  | timeout : Upstream
  | transportError : String → Upstream
  | response : Nat → String → String → List Char → Upstream

/-- Outcome of one request: either a raised `HTTPException` with a status
code and a `detail` string, or a `JSONResponse` with a status code and a
JSON content value. -/
inductive HandlerResult where
  | httpError : Nat → String → HandlerResult
  | jsonResponse : Nat → JVal → HandlerResult

/-- Modelled from the requests library (external to the repository):
`Response.raise_for_status` raises `HTTPError` exactly for status codes
400 to 599, and the text of the raised error is built from the status
code, the reason phrase and the final URL of the response. -/
def raise_for_status_msg (status : Nat) (reason finalUrl : String) : String :=
  toString status ++
    (if status < 500 then " Client Error: " else " Server Error: ") ++
    reason ++ " for url: " ++ finalUrl

/-- Step 4 of `api/index.py`:
`video_url = html.unescape(video_match.group(1)) if video_match else ""`. -/
def video_url_of (body : List Char) : String :=
  match reSearch video_pattern body with
  | some m => String.mk (unescape m)
  | none => ""

/-- Step 5, method 1 of `api/index.py`:
`thumb_base64 = thumb_base64_match.group(1) if thumb_base64_match else None`.
The captured payload is taken verbatim, without unescaping. -/
def thumb_base64_of (body : List Char) : Option String :=
  (reSearch thumb_base64_pattern body).map String.mk

/-- Steps 5, methods 2 and 3 of `api/index.py`: the `.jpg` anchor pattern
first, and the `<img ... .jpg>` pattern only when the former produced
nothing. -/
def thumb_url_of (body : List Char) : String :=
  let t :=
    match reSearch thumb_pattern body with
    | some m => String.mk (unescape m)
    | none => ""
  if t = "" then
    match reSearch alt_thumb_pattern body with
    | some m => String.mk (unescape m)
    | none => ""
  else t

/-- The `thumbnail_base64` field of the success payload:
`f"data:image/jpg;base64,{thumb_base64}" if thumb_base64 else None`.  The
captured payload is nonempty whenever present, so Python truthiness of the
payload coincides with presence of the match. -/
def thumbnail_base64_field (body : List Char) : Option String :=
  (thumb_base64_of body).map fun p => "data:image/jpg;base64," ++ p

/-- Success envelope of `api/index.py`, step 6, literal transcription of the
dict passed to `JSONResponse` on the success branch. -/
def successEnvelope (video_url thumb_url : String) (thumb_base64 : Option String)
    (original : String) : JVal :=
  .jobj [("status", .jstr "success"),
         ("data", .jobj [("video_url", .jstr video_url),
                         ("thumbnail_url", .jstr thumb_url),
                         ("thumbnail_base64",
                           match thumb_base64 with
                           | some s => .jstr s
                           | none => .jnull),
                         ("original_url", .jstr original)]),
         ("message", .jstr "Video extracted successfully")]

/-- Error envelope of `api/index.py`, step 6, literal transcription of the
dict passed to `JSONResponse` on the no-video branch. -/
def errorEnvelope : JVal :=
  .jobj [("status", .jstr "error"),
         ("message", .jstr "Unable to extract video from the provided URL"),
         ("data", .jnull)]

/-- Steps 4 to 6 of `api/index.py`: the pure extraction over the response
body and the choice between the 200 success response and the 404 soft
error response. -/
def extract_and_respond (url : String) (body : List Char) : HandlerResult :=
  let video_url := video_url_of body
  if video_url ≠ "" then
    .jsonResponse 200
      (successEnvelope video_url (thumb_url_of body) (thumbnail_base64_field body) url)
  else
    .jsonResponse 404 errorEnvelope

/-- The `try` block of `api/index.py` steps 2 to 6 together with its
`except` clauses: a timeout becomes HTTP 408, any other
`RequestException` (transport failure, or the `HTTPError` raised by
`raise_for_status` for a 4xx or 5xx upstream status) becomes HTTP 500 with
the text of the exception, and otherwise extraction runs over the body. -/
def fetch_and_extract (url : String) (up : Upstream) : HandlerResult :=
  match up with
  | .timeout =>
    .httpError 408 "Request timeout - the external service took too long to respond"
  | .transportError msg =>
    .httpError 500 ("Failed to fetch data: " ++ msg)
  | .response status reason finalUrl body =>
    if 400 ≤ status ∧ status < 600 then
      .httpError 500 ("Failed to fetch data: " ++ raise_for_status_msg status reason finalUrl)
    else
      extract_and_respond url body

/-- The GET `/api/download` handler `download_instagram_content` of
`api/index.py`: blank check, Instagram substring check, then the fetch and
extraction, the outbound call being abstracted by the `Upstream`
behaviour. -/
def download_instagram_content (url : String) (up : Upstream) : HandlerResult :=
  if isBlank url then
    .httpError 400 "Missing Instagram URL"
  else if !(containsSub "instagram.com".data url.data || containsSub "instagr.am".data url.data) then
    .httpError 400 "Invalid Instagram URL"
  else
    fetch_and_extract url up

/-- The POST `/api/download` handler `download_instagram_content_post` of
`api/index.py`.  `request_data.get("url")` is modelled as an optional
string: `none` stands for an absent key or a JSON `null`, and the Python
falsiness test `if not url` additionally rejects the empty string.  On a
truthy value the handler delegates to the GET logic unchanged. -/
def download_instagram_content_post (url? : Option String) (up : Upstream) : HandlerResult :=
  match url? with
  | none => .httpError 400 "Missing \x27url\x27 field in request body"
  | some url =>
    if url = "" then .httpError 400 "Missing \x27url\x27 field in request body"
    else download_instagram_content url up

/-! Structural lemmas about the matcher. -/

/-- Minimal number of characters any match of the fragment consumes. -/
def minLen : RePat → Nat
  | .eps => 0
  | .lit _ k => minLen k + 1
  | .plus _ k => minLen k + 1
  | .star _ k => minLen k

theorem head?_mem {α : Type} {l : List α} {a : α} (h : l.head? = some a) : a ∈ l := by
  cases l with
  | nil => simp at h
  | cons x xs =>
    simp only [List.head?] at h
    injection h with h
    exact h ▸ List.mem_cons_self x xs

theorem endsNil_eq_nil (re : RePat) (r : List Char) (h : r ∈ endsNil re) : r = [] := by
  induction re with
  | eps => simpa [endsNil] using h
  | lit d k ih => simp [endsNil] at h
  | plus b k ih => simp [endsNil] at h
  | star b k ih => exact ih (by simpa [endsNil] using h)

theorem endsCons_suffix (c : Char) (t : List Char) (f : RePat → List (List Char))
    (hf : ∀ re r, r ∈ f re → r <:+ t) :
    ∀ re r, r ∈ endsCons c t f re → r <:+ (c :: t) := by
  intro re
  induction re with
  | eps =>
    intro r h
    simp only [endsCons, List.mem_singleton] at h
    exact h ▸ List.suffix_refl _
  | lit d k ih =>
    intro r h
    simp only [endsCons] at h
    split at h
    · exact (hf k r h).trans (List.suffix_cons c t)
    · simp at h
  | plus b k ih =>
    intro r h
    simp only [endsCons] at h
    split at h
    · simp at h
    · exact (hf _ r h).trans (List.suffix_cons c t)
  | star b k ih =>
    intro r h
    simp only [endsCons] at h
    rcases List.mem_append.mp h with h | h
    · split at h
      · simp at h
      · exact (hf _ r h).trans (List.suffix_cons c t)
    · exact ih r h

theorem ends_suffix : ∀ (s : List Char) (re : RePat) (r : List Char),
    r ∈ ends s re → r <:+ s := by
  intro s
  induction s with
  | nil =>
    intro re r h
    have := endsNil_eq_nil re r (by simpa [ends] using h)
    subst this
    exact List.nil_suffix
  | cons c t ih =>
    intro re r h
    exact endsCons_suffix c t (fun re0 => ends t re0) (fun re0 r0 h0 => ih re0 r0 h0)
      re r (by simpa [ends] using h)

theorem endsNil_minLen (re : RePat) (r : List Char) (h : r ∈ endsNil re) :
    r.length + minLen re ≤ 0 := by
  induction re with
  | eps =>
    have : r = [] := by simpa [endsNil] using h
    simp [this, minLen]
  | lit d k ih => simp [endsNil] at h
  | plus b k ih => simp [endsNil] at h
  | star b k ih =>
    have := ih (by simpa [endsNil] using h)
    simpa [minLen] using this

theorem endsCons_minLen (c : Char) (t : List Char) (f : RePat → List (List Char))
    (hf : ∀ re r, r ∈ f re → r.length + minLen re ≤ t.length) :
    ∀ re r, r ∈ endsCons c t f re → r.length + minLen re ≤ t.length + 1 := by
  intro re
  induction re with
  | eps =>
    intro r h
    have : r = c :: t := by simpa [endsCons] using h
    simp [this, minLen]
  | lit d k ih =>
    intro r h
    simp only [endsCons] at h
    split at h
    · have := hf k r h
      simp only [minLen]
      omega
    · simp at h
  | plus b k ih =>
    intro r h
    simp only [endsCons] at h
    split at h
    · simp at h
    · have := hf _ r h
      simp only [minLen] at this ⊢
      omega
  | star b k ih =>
    intro r h
    simp only [endsCons] at h
    rcases List.mem_append.mp h with h | h
    · split at h
      · simp at h
      · have := hf _ r h
        simp only [minLen] at this ⊢
        omega
    · have := ih r h
      simp only [minLen] at this ⊢
      omega

theorem ends_minLen : ∀ (s : List Char) (re : RePat) (r : List Char),
    r ∈ ends s re → r.length + minLen re ≤ s.length := by
  intro s
  induction s with
  | nil =>
    intro re r h
    simpa using endsNil_minLen re r (by simpa [ends] using h)
  | cons c t ih =>
    intro re r h
    simpa using endsCons_minLen c t (fun re0 => ends t re0)
      (fun re0 r0 h0 => ih re0 r0 h0) re r (by simpa [ends] using h)

theorem ends_length (s : List Char) (re : RePat) (r : List Char)
    (h : r ∈ ends s re) : r.length ≤ s.length := by
  have := ends_minLen s re r h
  omega

/-- Characters consumed by a match of the greedy class `[^b]*` with empty
continuation are all different from `b`. -/
theorem ends_star_nobad (b : Char) : ∀ (s r : List Char),
    r ∈ ends s (.star b .eps) →
    ∀ ch ∈ s.take (s.length - r.length), ch ≠ b := by
  intro s
  induction s with
  | nil =>
    intro r h
    have : r = [] := endsNil_eq_nil _ r (by simpa [ends] using h)
    simp [this]
  | cons c t ih =>
    intro r h
    have h' : r ∈ (if c = b then [] else ends t (.star b .eps)) ++ [c :: t] := by
      simpa [ends, endsCons] using h
    rcases List.mem_append.mp h' with h'' | h''
    · split at h''
      · simp at h''
      · rename_i hcb
        have hlen : r.length ≤ t.length := ends_length t _ r h''
        have htake : (c :: t).take ((c :: t).length - r.length)
            = c :: t.take (t.length - r.length) := by
          simp only [List.length_cons]
          have : t.length + 1 - r.length = (t.length - r.length) + 1 := by omega
          rw [this, List.take_succ_cons]
        rw [htake]
        intro ch hch
        rcases List.mem_cons.mp hch with hch | hch
        · exact hch ▸ hcb
        · exact ih r h'' ch hch
    · have : r = c :: t := by simpa using h''
      simp [this]

/-- Characters consumed by a match of the greedy class `[^b]+` with empty
continuation are all different from `b`. -/
theorem ends_plus_nobad (b : Char) (s r : List Char)
    (h : r ∈ ends s (.plus b .eps)) :
    ∀ ch ∈ s.take (s.length - r.length), ch ≠ b := by
  cases s with
  | nil => simp [ends, endsNil] at h
  | cons c t =>
    have h' : r ∈ (if c = b then [] else ends t (.star b .eps)) := by
      simpa [ends, endsCons] using h
    split at h'
    · simp at h'
    · rename_i hcb
      have hlen' : r.length ≤ t.length := ends_length t _ r h'
      have htake : (c :: t).take ((c :: t).length - r.length)
          = c :: t.take (t.length - r.length) := by
        simp only [List.length_cons]
        have : t.length + 1 - r.length = (t.length - r.length) + 1 := by omega
        rw [this, List.take_succ_cons]
      rw [htake]
      intro ch hch
      rcases List.mem_cons.mp hch with hch | hch
      · exact hch ▸ hcb
      · exact ends_star_nobad b t r h' ch hch

/-- Every successful anchored match decomposes into a remainder of the part
before the group and a remainder of the group, the capture being the
difference. -/
theorem matchPat_decomp (p : Pat) (s c : List Char) (h : matchPat p s = some c) :
    ∃ r1 ∈ ends s p.pre, ∃ r2 ∈ ends r1 p.grp,
      c = r1.take (r1.length - r2.length) := by
  have hc : c ∈ caps p s := head?_mem h
  simp only [caps, List.mem_flatMap, List.mem_map] at hc
  obtain ⟨r1, h1, r2, h2, _, _, hc⟩ := hc
  exact ⟨r1, h1, r2, h2, hc.symm⟩

/-- `reSearch` returns the match at the leftmost start position admitting
one: there is a start index at which the anchored match yields the result,
and no anchored match exists at any earlier index. -/
theorem reSearch_leftmost (p : Pat) : ∀ (s c : List Char),
    reSearch p s = some c →
    ∃ i, i ≤ s.length ∧ matchPat p (s.drop i) = some c ∧
      ∀ j, j < i → matchPat p (s.drop j) = none := by
  intro s
  induction s with
  | nil =>
    intro c h
    exact ⟨0, by simp, by simpa [reSearch] using h, by omega⟩
  | cons c0 t ih =>
    intro c h
    simp only [reSearch] at h
    cases hm : matchPat p (c0 :: t) with
    | some r =>
      rw [hm] at h
      injection h with h
      exact ⟨0, by simp, by simpa [hm] using congrArg some h, by omega⟩
    | none =>
      rw [hm] at h
      obtain ⟨i, hi, hmt, hlt⟩ := ih c h
      refine ⟨i + 1, by simpa using Nat.succ_le_succ hi, by simpa using hmt, ?_⟩
      intro j hj
      cases j with
      | zero => simpa using hm
      | succ j' =>
        have : j' < i := by omega
        simpa using hlt j' this

theorem matchPat_capture_ne_nil (p : Pat) (hm : 1 ≤ minLen p.grp)
    (s c : List Char) (h : matchPat p s = some c) : c ≠ [] := by
  obtain ⟨r1, h1, r2, h2, hc⟩ := matchPat_decomp p s c h
  have hlen := ends_minLen r1 p.grp r2 h2
  have hlt : r2.length < r1.length := by omega
  intro hnil
  rw [hc] at hnil
  have : (r1.take (r1.length - r2.length)).length = 0 := by rw [hnil]; rfl
  rw [List.length_take] at this
  omega

theorem reSearch_capture_ne_nil (p : Pat) (hm : 1 ≤ minLen p.grp)
    (s c : List Char) (h : reSearch p s = some c) : c ≠ [] := by
  obtain ⟨i, _, hmt, _⟩ := reSearch_leftmost p s c h
  exact matchPat_capture_ne_nil p hm _ c hmt

/-- The payload captured by the base64 thumbnail pattern is nonempty and
contains no double quote character. -/
theorem b64_capture_props (s c : List Char)
    (h : reSearch thumb_base64_pattern s = some c) :
    c ≠ [] ∧ ∀ ch ∈ c, ch ≠ '"' := by
  obtain ⟨i, _, hmt, _⟩ := reSearch_leftmost _ s c h
  refine ⟨matchPat_capture_ne_nil _ (by decide) _ c hmt, ?_⟩
  obtain ⟨r1, h1, r2, h2, hc⟩ := matchPat_decomp _ _ c hmt
  have hg : thumb_base64_pattern.grp = RePat.plus '"' RePat.eps := rfl
  rw [hg] at h2
  have := ends_plus_nobad '"' r1 r2 h2
  intro ch hch
  exact this ch (hc ▸ hch)

theorem unescape_ne_nil (l : List Char) (h : l ≠ []) : unescape l ≠ [] := by
  induction l using unescape.induct with
  | case1 => exact absurd rfl h
  | case2 rest ih => simp [unescape]
  | case3 rest ih => simp [unescape]
  | case4 rest ih => simp [unescape]
  | case5 rest ih => simp [unescape]
  | case6 c rest ih h2 => simp [unescape]

theorem unescape_mk_ne_empty (l : List Char) (h : l ≠ []) :
    String.mk (unescape l) ≠ "" := by
  intro he
  have hd : unescape l = [] := congrArg String.data he
  exact unescape_ne_nil l h hd

theorem isPrefixOf_mem {l₁ l₂ : List Char} (h : l₁.isPrefixOf l₂ = true)
    {a : Char} (ha : a ∈ l₁) : a ∈ l₂ := by
  induction l₁ generalizing l₂ with
  | nil => simp at ha
  | cons x xs ih =>
    cases l₂ with
    | nil => simp [List.isPrefixOf] at h
    | cons y ys =>
      simp only [List.isPrefixOf, Bool.and_eq_true, beq_iff_eq] at h
      rcases List.mem_cons.mp ha with ha | ha
      · exact List.mem_cons.mpr (Or.inl (ha.trans h.1))
      · exact List.mem_cons.mpr (Or.inr (ih h.2 ha))

theorem containsSub_mem {needle : List Char} : ∀ {hay : List Char},
    containsSub needle hay = true → ∀ a ∈ needle, a ∈ hay := by
  intro hay
  induction hay with
  | nil =>
    intro h a ha
    simp only [containsSub, List.isEmpty_iff] at h
    simp [h] at ha
  | cons c t ih =>
    intro h a ha
    simp only [containsSub, Bool.or_eq_true] at h
    rcases h with h | h
    · exact isPrefixOf_mem h ha
    · exact List.mem_cons.mpr (Or.inr (ih h a ha))

/-- A URL containing either Instagram host substring is not blank, so it
passes the first validation check of the handler. -/
theorem not_blank_of_valid (url : String)
    (hv : (containsSub "instagram.com".data url.data
          || containsSub "instagr.am".data url.data) = true) :
    isBlank url = false := by
  have hi : ('i' : Char) ∈ url.data := by
    have hv' : containsSub "instagram.com".data url.data = true
        ∨ containsSub "instagr.am".data url.data = true := by simpa using hv
    rcases hv' with h | h
    · exact containsSub_mem h 'i' (by decide)
    · exact containsSub_mem h 'i' (by decide)
  by_contra hb
  have hb' : isBlank url = true := by
    cases h : isBlank url
    · exact absurd h hb
    · rfl
  have := List.all_eq_true.mp hb' 'i' hi
  simp at this

theorem video_url_of_ne_empty (body c : List Char)
    (h : reSearch video_pattern body = some c) : video_url_of body ≠ "" := by
  unfold video_url_of
  rw [h]
  exact unescape_mk_ne_empty c (reSearch_capture_ne_nil video_pattern (by decide) body c h)

theorem thumb_url_of_anchor (body c : List Char)
    (h : reSearch thumb_pattern body = some c) :
    thumb_url_of body = String.mk (unescape c) := by
  have hne := unescape_mk_ne_empty c
    (reSearch_capture_ne_nil thumb_pattern (by decide) body c h)
  unfold thumb_url_of
  rw [h]
  simp [hne]

/-! Claim theorems. -/

/-- C1: every input url that is blank (empty or whitespace-only) or lacks
both `instagram.com` and `instagr.am` as case-sensitive substrings is
rejected with HTTP 400 uniformly in the upstream behaviour, hence before
any fetch; conversely a url containing either substring passes validation
and the handler proceeds to the fetch-and-extract phase. -/
theorem C1_validation_gate (url : String) :
    ((isBlank url = true
        ∨ (containsSub "instagram.com".data url.data
            || containsSub "instagr.am".data url.data) = false) →
      ∃ d, ∀ up, download_instagram_content url up = .httpError 400 d)
    ∧ ((containsSub "instagram.com".data url.data
          || containsSub "instagr.am".data url.data) = true →
      ∀ up, download_instagram_content url up = fetch_and_extract url up) := by
  constructor
  · intro h1
    by_cases hb : isBlank url = true
    · exact ⟨"Missing Instagram URL",
        fun up => by simp [download_instagram_content, hb]⟩
    · have hb' : isBlank url = false := by
        cases hx : isBlank url
        · rfl
        · exact absurd hx hb
      have hc : (containsSub "instagram.com".data url.data
          || containsSub "instagr.am".data url.data) = false := by
        rcases h1 with h1 | h1
        · exact absurd h1 hb
        · exact h1
      exact ⟨"Invalid Instagram URL",
        fun up => by simp [download_instagram_content, hb', hc]⟩
  · intro hv up
    simp [download_instagram_content, not_blank_of_valid url hv, hv]

theorem C1_validation_gate_witness :
    (∃ d, ∀ up, download_instagram_content "https://example.com/x" up
        = .httpError 400 d)
    ∧ (∀ up, download_instagram_content "https://instagram.com/reel/y" up
        = fetch_and_extract "https://instagram.com/reel/y" up) :=
  ⟨(C1_validation_gate "https://example.com/x").1 (Or.inr (by decide)),
   (C1_validation_gate "https://instagram.com/reel/y").2 (by decide)⟩

/-- C2: the extracted video url is the HTML-unescaped capture of the first
(leftmost) match of the `.mp4` anchor pattern: whenever the search
succeeds, its result is the anchored match at some position before which
no anchored match exists; the concrete example body yields the expected
url; and when no match exists the extracted video url is empty, which the
handler turns into the 404 response carrying no video field. -/
theorem C2_video_first_match :
    (∀ body c, reSearch video_pattern body = some c →
      video_url_of body = String.mk (unescape c) ∧
      ∃ i, i ≤ body.length ∧ matchPat video_pattern (body.drop i) = some c ∧
        ∀ j, j < i → matchPat video_pattern (body.drop j) = none)
    ∧ video_url_of ("<a href=\"https://cdn.example/video123.mp4?sig=abc\"></a>".data)
        = "https://cdn.example/video123.mp4?sig=abc"
    ∧ (∀ body, reSearch video_pattern body = none → video_url_of body = "") := by
  refine ⟨?_, rfl, ?_⟩
  · intro body c h
    refine ⟨?_, reSearch_leftmost _ body c h⟩
    unfold video_url_of
    rw [h]
  · intro body h
    unfold video_url_of
    rw [h]

theorem C2_video_first_match_witness :
    (video_url_of "<a href=\"v.mp4\"></a>".data = String.mk (unescape "v.mp4".data) ∧
      ∃ i, i ≤ ("<a href=\"v.mp4\"></a>".data).length ∧
        matchPat video_pattern (("<a href=\"v.mp4\"></a>".data).drop i)
          = some "v.mp4".data ∧
        ∀ j, j < i →
          matchPat video_pattern (("<a href=\"v.mp4\"></a>".data).drop j) = none)
    ∧ video_url_of "<p>x</p>".data = "" :=
  ⟨C2_video_first_match.1 "<a href=\"v.mp4\"></a>".data "v.mp4".data rfl,
   C2_video_first_match.2.2 "<p>x</p>".data rfl⟩

/-- C3: a 2xx upstream body in which the `.mp4` anchor pattern has no match
makes the handler return the soft 404 JSON response with `data: null` and
`status: error` (a returned response, not a raised exception), for every
body, so in particular no thumbnail data appears in it even when the
thumbnail patterns match. -/
theorem C3_no_video_soft_404 (url : String) (st : Nat) (reason finalUrl : String)
    (body : List Char)
    (hv : (containsSub "instagram.com".data url.data
          || containsSub "instagr.am".data url.data) = true)
    (h2xx : 200 ≤ st ∧ st < 300)
    (hnone : reSearch video_pattern body = none) :
    download_instagram_content url (.response st reason finalUrl body)
      = .jsonResponse 404 (JVal.jobj
          [("status", .jstr "error"),
           ("message", .jstr "Unable to extract video from the provided URL"),
           ("data", .jnull)]) := by
  have hb := not_blank_of_valid url hv
  have hst : ¬(400 ≤ st ∧ st < 600) := by omega
  have hvu : video_url_of body = "" := by
    unfold video_url_of
    rw [hnone]
  simp [download_instagram_content, hb, hv, fetch_and_extract, hst,
        extract_and_respond, hvu, errorEnvelope]

theorem C3_no_video_soft_404_witness :
    download_instagram_content "https://instagram.com/p/z"
      (.response 200 "OK" "u" "<img src=\"https://x/t.jpg\">".data)
      = .jsonResponse 404 (JVal.jobj
          [("status", .jstr "error"),
           ("message", .jstr "Unable to extract video from the provided URL"),
           ("data", .jnull)]) :=
  C3_no_video_soft_404 "https://instagram.com/p/z" 200 "OK" "u"
    "<img src=\"https://x/t.jpg\">".data (by decide) (by omega) rfl

/-- C4: the `.jpg` anchor pass takes precedence for the thumbnail url — any
successful anchor search determines `thumbnail_url` as its unescaped
capture, for every body (so also when an `<img ... .jpg>` tag is present);
the `<img>` fallback pattern is consulted exactly when the anchor pass
found nothing; both spec examples evaluate as stated; and when both passes
fail the thumbnail url is the empty string. -/
theorem C4_thumbnail_precedence :
    (∀ body c, reSearch thumb_pattern body = some c →
      thumb_url_of body = String.mk (unescape c))
    ∧ (∀ body, reSearch thumb_pattern body = none →
      thumb_url_of body =
        (match reSearch alt_thumb_pattern body with
         | some m => String.mk (unescape m)
         | none => ""))
    ∧ thumb_url_of "<a href=\"https://x/a.jpg\"></a><img src=\"https://x/b.jpg\">".data
        = "https://x/a.jpg"
    ∧ thumb_url_of "<img src=\"https://x/b.jpg\">".data = "https://x/b.jpg"
    ∧ (∀ body, reSearch thumb_pattern body = none →
        reSearch alt_thumb_pattern body = none → thumb_url_of body = "") := by
  refine ⟨?_, ?_, rfl, rfl, ?_⟩
  · intro body c h
    exact thumb_url_of_anchor body c h
  · intro body h
    unfold thumb_url_of
    rw [h]
    simp
  · intro body h1 h2
    unfold thumb_url_of
    rw [h1, h2]
    simp

theorem C4_thumbnail_precedence_witness :
    thumb_url_of "<a href=\"a.jpg\"></a>".data = String.mk (unescape "a.jpg".data)
    ∧ thumb_url_of "<img src=\"b.jpg\">".data =
        (match reSearch alt_thumb_pattern "<img src=\"b.jpg\">".data with
         | some m => String.mk (unescape m)
         | none => "")
    ∧ thumb_url_of "nothing".data = "" :=
  ⟨C4_thumbnail_precedence.1 "<a href=\"a.jpg\"></a>".data "a.jpg".data rfl,
   C4_thumbnail_precedence.2.1 "<img src=\"b.jpg\">".data rfl,
   C4_thumbnail_precedence.2.2.2.2 "nothing".data rfl rfl⟩

/-- C5: whenever the base64 thumbnail pattern matches, the output field is
the full reconstructed data URI with the payload taken verbatim (no
unescaping is applied to the capture); the concrete example body yields
the stated value; and when the pattern has no match the field is absent. -/
theorem C5_thumb_base64_verbatim :
    (∀ body c, reSearch thumb_base64_pattern body = some c →
      thumbnail_base64_field body = some ("data:image/jpg;base64," ++ String.mk c))
    ∧ thumbnail_base64_field "<img src=\"data:image/jpg;base64,AAAA\">".data
        = some "data:image/jpg;base64,AAAA"
    ∧ (∀ body, reSearch thumb_base64_pattern body = none →
      thumbnail_base64_field body = none) := by
  refine ⟨?_, rfl, ?_⟩
  · intro body c h
    unfold thumbnail_base64_field thumb_base64_of
    rw [h]
    rfl
  · intro body h
    unfold thumbnail_base64_field thumb_base64_of
    rw [h]
    rfl

theorem C5_thumb_base64_verbatim_witness :
    thumbnail_base64_field "<img src=\"data:image/jpg;base64,AAAA\">".data
      = some ("data:image/jpg;base64," ++ String.mk "AAAA".data)
    ∧ thumbnail_base64_field "plain".data = none :=
  ⟨C5_thumb_base64_verbatim.1 "<img src=\"data:image/jpg;base64,AAAA\">".data
      "AAAA".data rfl,
   C5_thumb_base64_verbatim.2.2 "plain".data rfl⟩

/-- C6 counterexample: an upstream response with the non-2xx status 304 is
not translated to HTTP 500 — `raise_for_status` raises only for 4xx and
5xx — so the body is parsed and the handler answers 200. -/
theorem C6_counterexample :
    download_instagram_content "https://instagram.com/reel/x"
      (.response 304 "Not Modified" "u" "<a href=\"v.mp4\"></a>".data)
      = .jsonResponse 200
          (successEnvelope "v.mp4" "" none "https://instagram.com/reel/x") := rfl

/-- C6 amended: for a validated input, a timeout of the outbound request
yields HTTP 408; a transport-level failure yields HTTP 500; an upstream
status in 400–599 yields HTTP 500 through `raise_for_status`; and every
other status (2xx as well as residual 3xx such as 304) proceeds to
extraction.  These are the only failure translations and each involves a
single fetch attempt. -/
theorem C6_amended_failure_translation (url : String)
    (hv : (containsSub "instagram.com".data url.data
          || containsSub "instagr.am".data url.data) = true) :
    (download_instagram_content url Upstream.timeout
      = .httpError 408 "Request timeout - the external service took too long to respond")
    ∧ (∀ msg, download_instagram_content url (.transportError msg)
      = .httpError 500 ("Failed to fetch data: " ++ msg))
    ∧ (∀ st reason finalUrl body, 400 ≤ st → st < 600 →
      download_instagram_content url (.response st reason finalUrl body)
        = .httpError 500
            ("Failed to fetch data: " ++ raise_for_status_msg st reason finalUrl))
    ∧ (∀ st reason finalUrl body, st < 400 ∨ 600 ≤ st →
      download_instagram_content url (.response st reason finalUrl body)
        = extract_and_respond url body) := by
  have hb := not_blank_of_valid url hv
  refine ⟨by simp [download_instagram_content, hb, hv, fetch_and_extract],
    fun msg => by simp [download_instagram_content, hb, hv, fetch_and_extract],
    fun st reason finalUrl body h1 h2 => ?_,
    fun st reason finalUrl body h1 => ?_⟩
  · have hst : 400 ≤ st ∧ st < 600 := ⟨h1, h2⟩
    simp [download_instagram_content, hb, hv, fetch_and_extract, hst]
  · have hst : ¬(400 ≤ st ∧ st < 600) := by omega
    simp [download_instagram_content, hb, hv, fetch_and_extract, hst]

theorem C6_amended_failure_translation_witness :
    (download_instagram_content "https://instagram.com/reel/x" Upstream.timeout
      = .httpError 408 "Request timeout - the external service took too long to respond")
    ∧ (download_instagram_content "https://instagram.com/reel/x"
        (.transportError "connection reset")
      = .httpError 500 ("Failed to fetch data: " ++ "connection reset"))
    ∧ (download_instagram_content "https://instagram.com/reel/x"
        (.response 404 "Not Found" "u" [])
      = .httpError 500
          ("Failed to fetch data: " ++ raise_for_status_msg 404 "Not Found" "u"))
    ∧ (download_instagram_content "https://instagram.com/reel/x"
        (.response 304 "Not Modified" "u" [])
      = extract_and_respond "https://instagram.com/reel/x" []) :=
  ⟨(C6_amended_failure_translation "https://instagram.com/reel/x" (by decide)).1,
   (C6_amended_failure_translation "https://instagram.com/reel/x" (by decide)).2.1
     "connection reset",
   (C6_amended_failure_translation "https://instagram.com/reel/x" (by decide)).2.2.1
     404 "Not Found" "u" [] (by omega) (by omega),
   (C6_amended_failure_translation "https://instagram.com/reel/x" (by decide)).2.2.2
     304 "Not Modified" "u" [] (by omega)⟩

/-- C7 counterexample: on the empty url the two entry points both answer
400 but with different detail payloads, so the responses are not
byte-identical. -/
theorem C7_counterexample :
    download_instagram_content_post (some "") Upstream.timeout
      = .httpError 400 "Missing \x27url\x27 field in request body"
    ∧ download_instagram_content "" Upstream.timeout
      = .httpError 400 "Missing Instagram URL"
    ∧ download_instagram_content_post (some "") Upstream.timeout
      ≠ download_instagram_content "" Upstream.timeout := by
  refine ⟨rfl, rfl, ?_⟩
  intro h
  have h1 : download_instagram_content_post (some "") Upstream.timeout
      = .httpError 400 "Missing \x27url\x27 field in request body" := rfl
  have h2 : download_instagram_content "" Upstream.timeout
      = .httpError 400 "Missing Instagram URL" := rfl
  rw [h1, h2] at h
  injection h with hstat hdet
  exact absurd hdet (by decide)

/-- C7 amended: for every nonempty url string the POST handler delegates to
the GET logic unchanged, so both entry points produce identical results
for every upstream behaviour; only the empty url separates them, both
rejecting with 400 but with different detail strings. -/
theorem C7_amended_post_get (url : String) (up : Upstream) (h : url ≠ "") :
    download_instagram_content_post (some url) up
      = download_instagram_content url up := by
  have hp : download_instagram_content_post (some url) up
      = if url = "" then .httpError 400 "Missing \x27url\x27 field in request body"
        else download_instagram_content url up := rfl
  rw [hp, if_neg h]

theorem C7_amended_post_get_witness :
    download_instagram_content_post (some "https://instagr.am/p/q") Upstream.timeout
      = download_instagram_content "https://instagr.am/p/q" Upstream.timeout :=
  C7_amended_post_get "https://instagr.am/p/q" Upstream.timeout (by decide)

/-- C8: for a validated input whose 2xx upstream body contains a video
match, the handler answers HTTP 200 with exactly the success envelope —
`status`, `data` with the four fields, `message` — and `original_url` is
the input url echoed unchanged. -/
theorem C8_success_envelope (url : String) (st : Nat) (reason finalUrl : String)
    (body c : List Char)
    (hv : (containsSub "instagram.com".data url.data
          || containsSub "instagr.am".data url.data) = true)
    (h2xx : 200 ≤ st ∧ st < 300)
    (hm : reSearch video_pattern body = some c) :
    download_instagram_content url (.response st reason finalUrl body)
      = .jsonResponse 200 (JVal.jobj
          [("status", .jstr "success"),
           ("data", .jobj
             [("video_url", .jstr (String.mk (unescape c))),
              ("thumbnail_url", .jstr (thumb_url_of body)),
              ("thumbnail_base64",
                match thumbnail_base64_field body with
                | some s => JVal.jstr s
                | none => JVal.jnull),
              ("original_url", .jstr url)]),
           ("message", .jstr "Video extracted successfully")]) := by
  have hb := not_blank_of_valid url hv
  have hst : ¬(400 ≤ st ∧ st < 600) := by omega
  have hvu : video_url_of body = String.mk (unescape c) := by
    unfold video_url_of
    rw [hm]
  have hne : video_url_of body ≠ "" := video_url_of_ne_empty body c hm
  simp only [download_instagram_content, hb, hv, Bool.not_true, Bool.false_eq_true,
    if_false, if_true, fetch_and_extract, hst, extract_and_respond, hvu,
    successEnvelope]
  rw [if_pos (hvu ▸ hne)]

theorem C8_success_envelope_witness :
    download_instagram_content "https://instagram.com/reel/x"
      (.response 200 "OK" "u" "<a href=\"v.mp4\"></a>".data)
      = .jsonResponse 200 (JVal.jobj
          [("status", .jstr "success"),
           ("data", .jobj
             [("video_url", .jstr (String.mk (unescape "v.mp4".data))),
              ("thumbnail_url", .jstr (thumb_url_of "<a href=\"v.mp4\"></a>".data)),
              ("thumbnail_base64",
                match thumbnail_base64_field "<a href=\"v.mp4\"></a>".data with
                | some s => JVal.jstr s
                | none => JVal.jnull),
              ("original_url", .jstr "https://instagram.com/reel/x")]),
           ("message", .jstr "Video extracted successfully")]) :=
  C8_success_envelope "https://instagram.com/reel/x" 200 "OK" "u"
    "<a href=\"v.mp4\"></a>".data "v.mp4".data (by decide) (by omega) rfl

/-- C9: every HTTP 200 response carries the success envelope for the echoed
url, its `video_url` is a nonempty string, and its `thumbnail_base64` is
either null or the prefix `data:image/jpg;base64,` followed by a nonempty
payload containing no double quote. -/
theorem C9_success_invariant (url : String) (up : Upstream) (content : JVal)
    (h : download_instagram_content url up = .jsonResponse 200 content) :
    ∃ v tu tb, content = successEnvelope v tu tb url ∧ v ≠ "" ∧
      (tb = none ∨ ∃ p, tb = some ("data:image/jpg;base64," ++ p) ∧
        p ≠ "" ∧ ∀ ch ∈ p.data, ch ≠ '"') := by
  unfold download_instagram_content at h
  split at h
  · simp at h
  · split at h
    · simp at h
    · cases up with
      | timeout => simp [fetch_and_extract] at h
      | transportError msg => simp [fetch_and_extract] at h
      | response st reason finalUrl body =>
        simp only [fetch_and_extract] at h
        split at h
        · simp at h
        · simp only [extract_and_respond] at h
          split at h
          · rename_i hne
            have hc : content = successEnvelope (video_url_of body)
                (thumb_url_of body) (thumbnail_base64_field body) url := by
              injection h with hs hcont
              exact hcont.symm
            refine ⟨_, _, _, hc, hne, ?_⟩
            cases hb : reSearch thumb_base64_pattern body with
            | none =>
              left
              unfold thumbnail_base64_field thumb_base64_of
              rw [hb]
              rfl
            | some cc =>
              right
              refine ⟨String.mk cc, ?_, ?_, ?_⟩
              · unfold thumbnail_base64_field thumb_base64_of
                rw [hb]
                rfl
              · have hnn := (b64_capture_props body cc hb).1
                intro he
                exact hnn (congrArg String.data he)
              · have hq := (b64_capture_props body cc hb).2
                intro ch hch
                exact hq ch hch
          · simp at h

theorem C9_success_invariant_witness :
    ∃ v tu tb,
      successEnvelope "v.mp4" ""
          (some "data:image/jpg;base64,AAAA") "https://instagram.com/reel/x"
        = successEnvelope v tu tb "https://instagram.com/reel/x" ∧ v ≠ "" ∧
      (tb = none ∨ ∃ p, tb = some ("data:image/jpg;base64," ++ p) ∧
        p ≠ "" ∧ ∀ ch ∈ p.data, ch ≠ '"') :=
  C9_success_invariant "https://instagram.com/reel/x"
    (.response 200 "OK" "u"
      "<a href=\"v.mp4\"></a><img src=\"data:image/jpg;base64,AAAA\">".data)
    (successEnvelope "v.mp4" ""
      (some "data:image/jpg;base64,AAAA") "https://instagram.com/reel/x") rfl

/-- C10: at the POST interface an absent, null or empty url is rejected by
the POST handler with detail `Missing url field in request body`, while
a whitespace-only url such as a single space passes that check, is
delegated to the GET logic, and is rejected there with the different
detail `Missing Instagram URL`. -/
theorem C10_post_error_paths :
    (∀ up, download_instagram_content_post none up
        = .httpError 400 "Missing \x27url\x27 field in request body")
    ∧ (∀ up, download_instagram_content_post (some "") up
        = .httpError 400 "Missing \x27url\x27 field in request body")
    ∧ (∀ up, download_instagram_content_post (some " ") up
        = .httpError 400 "Missing Instagram URL")
    ∧ ("Missing \x27url\x27 field in request body" : String)
        ≠ "Missing Instagram URL" := by
  exact ⟨fun up => rfl, fun up => rfl, fun up => rfl, by decide⟩

theorem C10_post_error_paths_witness :
    download_instagram_content_post none Upstream.timeout
      = .httpError 400 "Missing \x27url\x27 field in request body"
    ∧ download_instagram_content_post (some " ") Upstream.timeout
      = .httpError 400 "Missing Instagram URL" :=
  ⟨C10_post_error_paths.1 Upstream.timeout,
   C10_post_error_paths.2.2.1 Upstream.timeout⟩

end InstaApi
